import Mathlib

/-!
Verification development for the negotiation-briefing pipeline backend
(FastAPI + LangGraph multi-agent system under `backend/app`).

Conventions used throughout this file:
* Python strings are modelled as lists of characters (`PyStr`), and the
  Python string operations used by the source (`split`, `strip`, `lower`,
  `startswith`, `in`, slicing) are modelled by executable functions below.
* Progress fractions in [0.0, 1.0] are represented in hundredths as natural
  numbers (0.15 becomes 15, 1.0 becomes 100); every progress constant in the
  source is a multiple of 0.01, so this embedding is exact.
* Fallible Python code is modelled with `Except`/`Option`; an exception
  raised by a block is an `Except.error` carrying `str(e)`.
-/

/-- Python `str` modelled as a list of characters. -/
abbrev PyStr := List Char

/-- View a Lean string literal as a `PyStr`. -/
def pyOf (s : String) : PyStr := s.data

/-- `isPrefixL pre cs` is true iff `pre` is a prefix of `cs` (Boolean). -/
def isPrefixL : PyStr → PyStr → Bool
  | [], _ => true
  | _ :: _, [] => false
  | a :: as, b :: bs => a == b && isPrefixL as bs

/-- Python `cs.startswith(pre)`. -/
def startsWithL (cs pre : PyStr) : Bool := isPrefixL pre cs

/-- Fuelled worker for `pySplit`; `acc` holds the current chunk reversed. -/
def pySplitGo (sep : PyStr) : Nat → PyStr → PyStr → List PyStr
  | _, [], acc => [acc.reverse]
  | 0, cs, acc => [acc.reverse ++ cs]
  | fuel + 1, c :: rest, acc =>
    if isPrefixL sep (c :: rest) then
      acc.reverse :: pySplitGo sep fuel (List.drop sep.length (c :: rest)) []
    else
      pySplitGo sep fuel rest (c :: acc)

/-- Python `cs.split(sep)` for a non-empty separator `sep`. -/
def pySplit (cs sep : PyStr) : List PyStr := pySplitGo sep cs.length cs []

/-- Python `sep in cs` (substring test), for non-empty `sep`. -/
def pyContains (cs sep : PyStr) : Bool := 2 ≤ (pySplit cs sep).length

/-- Python `cs.split(sep, 1)[1]`: everything after the first occurrence of
`sep`.  Only used where the source has established `sep in cs`; when `sep`
does not occur the result is `[]`. -/
def pyAfterFirst (cs sep : PyStr) : PyStr :=
  List.intercalate sep ((pySplit cs sep).tail)

/-- Python `cs.strip()`. -/
def pyStrip (cs : PyStr) : PyStr :=
  ((cs.dropWhile Char.isWhitespace).reverse.dropWhile Char.isWhitespace).reverse

/-- Python `cs.lower()` (ASCII, which is all the source compares). -/
def pyLower (cs : PyStr) : PyStr := cs.map Char.toLower

/-- Case-insensitive prefix test: the pattern `pat` is given in lowercase
and is compared against the lowercase image of the text. -/
def isPrefixCI : PyStr → PyStr → Bool
  | [], _ => true
  | _ :: _, [] => false
  | a :: as, b :: bs => a == b.toLower && isPrefixCI as bs

/-- Fuelled worker modelling `re.sub(pat, "", cs, flags=re.IGNORECASE)` for a
literal lowercase pattern `pat`: removes every (left-to-right,
non-overlapping) case-insensitive occurrence. -/
def pyRemoveCIGo (pat : PyStr) : Nat → PyStr → PyStr
  | _, [] => []
  | 0, cs => cs
  | fuel + 1, c :: rest =>
    if pat ≠ [] ∧ isPrefixCI pat (c :: rest) then
      pyRemoveCIGo pat fuel (List.drop (pat.length - 1) rest)
    else
      c :: pyRemoveCIGo pat fuel rest

/-- `re.sub(pat, "", cs, flags=re.IGNORECASE)` for a literal lowercase `pat`. -/
def pyRemoveCI (cs pat : PyStr) : PyStr := pyRemoveCIGo pat cs.length cs

/-- Numeric value of a digit string (most significant digit first). -/
def natOfDigits (cs : PyStr) : Nat :=
  cs.foldl (fun n c => 10 * n + (c.toNat - ('0').toNat)) 0

/-!
## `parse_price` — `backend/app/agents/outcome_assessment.py`, lines 26-33

```python
def parse_price(price_str: str) -> float:
    try:
        clean_price = ''.join(c for c in str(price_str) if c.isdigit() or c == '.')
        return float(clean_price) if clean_price else 0.0
    except:
        return 0.0
```
-/

/-- The `''.join(c for c in str(price_str) if c.isdigit() or c == '.')` filter. -/
def priceClean (cs : PyStr) : PyStr := cs.filter (fun c => c.isDigit || c == '.')

/-- Model of Python `float()` restricted to strings made of digits and dots
(the only strings `parse_price` ever feeds it): it succeeds exactly when the
string contains at least one digit and at most one dot, and its value is the
exact decimal rational.  An invalid literal is `none` (Python: `ValueError`). -/
def pyFloatOfDigitsDot (cs : PyStr) : Option ℚ :=
  if cs.count ('.') ≤ 1 ∧ cs.any Char.isDigit then
    let ip := cs.takeWhile (fun c => c ≠ '.')
    let fp := (cs.dropWhile (fun c => c ≠ '.')).drop 1
    some ((natOfDigits ip : ℚ) + (natOfDigits fp : ℚ) / (10 : ℚ) ^ fp.length)
  else none

/-- `parse_price` from `outcome_assessment.py`: filter to digits and dots,
parse as float if non-empty and parseable, otherwise (empty remainder, or
`float()` raising) return `0.0`. -/
def parse_price (s : PyStr) : ℚ :=
  match pyFloatOfDigitsDot (priceClean s) with
  | some q => q
  | none => 0

/-- C10: `parse_price` is total: for every input it returns a number without
raising — it keeps only digit and `'.'` characters of the string, returns the
parsed value when that remainder is a valid float literal, and returns `0.0`
when the remainder is empty or unparseable (for example when it contains more
than one decimal point). -/
theorem parse_price_total_spec :
    (∀ s : PyStr, ∀ c ∈ priceClean s, c.isDigit ∨ c = '.') ∧
    (∀ s : PyStr, priceClean s = [] → parse_price s = 0) ∧
    (∀ s : PyStr, 2 ≤ (priceClean s).count ('.') → parse_price s = 0) ∧
    (∀ s : PyStr, ∀ q : ℚ, pyFloatOfDigitsDot (priceClean s) = some q →
      parse_price s = q) := by
  refine ⟨?_, ?_, ?_, ?_⟩
  · intro s c hc
    have h := List.of_mem_filter hc
    rcases Bool.or_eq_true _ _ |>.mp h with h' | h'
    · exact Or.inl h'
    · exact Or.inr (by simpa using h')
  · intro s hs
    simp [parse_price, hs, pyFloatOfDigitsDot]
  · intro s hs
    unfold parse_price pyFloatOfDigitsDot
    rw [if_neg]
    rintro ⟨h1, -⟩
    omega
  · intro s q hq
    simp [parse_price, hq]

/-- Witness for C10 at concrete inputs: `"$1,234.56"` parses to `1234.56`
and `"1.2.3"` (two decimal points) falls back to `0`. -/
theorem parse_price_total_spec_witness :
    parse_price (pyOf ("$1,234.56")) = (123456 : ℚ) / 100 ∧
    parse_price (pyOf ("1.2.3")) = 0 := by
  constructor
  · refine parse_price_total_spec.2.2.2 (pyOf ("$1,234.56")) ((123456 : ℚ) / 100) ?_
    have h1 : (priceClean (pyOf ("$1,234.56"))).count ('.') ≤ 1 ∧
        (priceClean (pyOf ("$1,234.56"))).any Char.isDigit := by decide
    have h2 : natOfDigits ((priceClean (pyOf ("$1,234.56"))).takeWhile (fun c => c ≠ '.')) = 1234 := by
      decide
    have h3 : ((priceClean (pyOf ("$1,234.56"))).dropWhile (fun c => c ≠ '.')).drop 1 = pyOf ("56") := by
      decide
    have h4 : natOfDigits (pyOf ("56")) = 56 := by decide
    have h5 : (pyOf ("56")).length = 2 := by decide
    simp only [pyFloatOfDigitsDot, if_pos h1]
    rw [h2, h3, h4, h5]
    norm_num
  · exact parse_price_total_spec.2.2.1 (pyOf ("1.2.3")) (by decide)

/-!
## `perplexity_search` — `backend/app/utils/perplexity.py`, lines 51-142

The function runs `for attempt in range(max_retries)` (default `max_retries = 3`):
a 200 response returns `{content, citations, success: True, error: None}`;
a 429 response sleeps `2 ** attempt` seconds and continues; any other status,
a timeout, or any other exception sleeps 1 second and continues unless this is
the last attempt, in which case `{content: "", success: False, error: ...}` is
returned; falling out of the loop (only possible when every attempt was a 429)
returns `{content: "", success: False, error: "Failed after 3 attempts"}`.
-/

/-- Outcome of one HTTP attempt inside `perplexity_search`'s retry loop. -/
inductive AttemptOutcome
  | ok200 (content : String)
  | rate429
  | httpOther (code : Nat) (body : String)
  | timeout
  | raised (msg : String)
deriving DecidableEq

/-- The dict `perplexity_search` returns (citations omitted — always paired
with `content` and irrelevant to the claims). -/
structure SearchResult where
  content : String
  success : Bool
  error : Option String
deriving DecidableEq

/-- The `for attempt in range(max_retries)` retry loop of `perplexity_search`.
Alongside the result it returns the log of seconds slept before retries
(`2 ** attempt` after a 429, `1` after any other recoverable failure). -/
def perplexityLoop (resp : Nat → AttemptOutcome) (maxRetries : Nat) :
    List Nat → SearchResult × List Nat
  | [] =>
    ({ content := "", success := false,
       error := some ("Failed after " ++ toString maxRetries ++ " attempts") }, [])
  | attempt :: rest =>
    match resp attempt with
    | .ok200 content => ({ content := content, success := true, error := none }, [])
    | .rate429 =>
      let r := perplexityLoop resp maxRetries rest
      (r.1, 2 ^ attempt :: r.2)
    | .httpOther code body =>
      if attempt < maxRetries - 1 then
        let r := perplexityLoop resp maxRetries rest
        (r.1, 1 :: r.2)
      else
        ({ content := "", success := false,
           error := some ("API returned status " ++ toString code ++ ": " ++ body) }, [])
    | .timeout =>
      if attempt < maxRetries - 1 then
        let r := perplexityLoop resp maxRetries rest
        (r.1, 1 :: r.2)
      else
        ({ content := "", success := false, error := some ("Request timeout") }, [])
    | .raised msg =>
      if attempt < maxRetries - 1 then
        let r := perplexityLoop resp maxRetries rest
        (r.1, 1 :: r.2)
      else
        ({ content := "", success := false, error := some msg }, [])

/-- `perplexity_search` with the default `max_retries = 3`, as a function of
the per-attempt outcomes of the underlying HTTP call. -/
def perplexity_search (resp : Nat → AttemptOutcome) : SearchResult × List Nat :=
  perplexityLoop resp 3 (List.range 3)

/-- Enumerate a bounded existential over the three attempt indices. -/
theorem exists_lt_three (p : Nat → Prop) : (∃ k < 3, p k) ↔ p 0 ∨ p 1 ∨ p 2 := by
  constructor
  · rintro ⟨k, hk, h⟩
    interval_cases k <;> tauto
  · rintro (h | h | h)
    · exact ⟨0, by omega, h⟩
    · exact ⟨1, by omega, h⟩
    · exact ⟨2, by omega, h⟩

/-- C7: `perplexity_search` never raises for any response sequence; it
succeeds exactly when one of the (up to) `max_retries = 3` attempts returns
a 200 response; every failing outcome yields `content = ""`,
`success = false` and an error message rather than a raised exception; a 429
response on a (reached) attempt `k` makes it wait `2 ^ k` seconds before
retrying; and when attempt `k` is the first to return a 200 response with
content `c`, the result is exactly `{content: c, success: true, error:
None}` — the 200 response's content is returned. -/
theorem perplexity_search_retry_contract :
    (∀ resp : Nat → AttemptOutcome,
      ((perplexity_search resp).1.success = true ↔ ∃ k < 3, ∃ c, resp k = .ok200 c)) ∧
    (∀ resp : Nat → AttemptOutcome, (perplexity_search resp).1.success = false →
      (perplexity_search resp).1.content = "" ∧ (perplexity_search resp).1.error.isSome) ∧
    (∀ resp : Nat → AttemptOutcome, ∀ k, k < 3 → resp k = .rate429 →
      (∀ i, i < k → ∀ c, resp i ≠ .ok200 c) → 2 ^ k ∈ (perplexity_search resp).2) ∧
    (∀ resp : Nat → AttemptOutcome, ∀ k c, k < 3 → resp k = .ok200 c →
      (∀ i, i < k → ∀ c', resp i ≠ .ok200 c') →
      (perplexity_search resp).1 = ⟨c, true, none⟩) := by
  refine ⟨?_, ?_, ?_, ?_⟩
  · intro resp
    rw [exists_lt_three (fun k => ∃ c, resp k = .ok200 c)]
    cases h0 : resp 0 <;> cases h1 : resp 1 <;> cases h2 : resp 2 <;>
      simp [perplexity_search, perplexityLoop, List.range_succ, h0, h1, h2]
  · intro resp
    cases h0 : resp 0 <;> cases h1 : resp 1 <;> cases h2 : resp 2 <;>
      simp [perplexity_search, perplexityLoop, List.range_succ, h0, h1, h2]
  · intro resp k hk h429 hprev
    interval_cases k
    · simp [perplexity_search, perplexityLoop, List.range_succ, h429]
    · cases h0 : resp 0
      case ok200 c => exact absurd h0 (hprev 0 (by omega) c)
      all_goals simp [perplexity_search, perplexityLoop, List.range_succ, h0, h429]
    · cases h0 : resp 0
      case ok200 c => exact absurd h0 (hprev 0 (by omega) c)
      all_goals
        cases h1 : resp 1
        case ok200 c => exact absurd h1 (hprev 1 (by omega) c)
        all_goals simp [perplexity_search, perplexityLoop, List.range_succ, h0, h1, h429]
  · intro resp k c hk hok hprev
    interval_cases k
    · simp [perplexity_search, perplexityLoop, List.range_succ, hok]
    · cases h0 : resp 0
      case ok200 c' => exact absurd h0 (hprev 0 (by omega) c')
      all_goals simp [perplexity_search, perplexityLoop, List.range_succ, h0, hok]
    · cases h0 : resp 0
      case ok200 c' => exact absurd h0 (hprev 0 (by omega) c')
      all_goals
        cases h1 : resp 1
        case ok200 c' => exact absurd h1 (hprev 1 (by omega) c')
        all_goals simp [perplexity_search, perplexityLoop, List.range_succ, h0, h1, hok]

/-- Witness for C7: a run whose first attempt is rate-limited and whose second
returns a 200 with content `"found"` waits `2 ^ 0 = 1` second after the 429
and returns exactly that content with `success: true` and no error. -/
theorem perplexity_search_retry_contract_witness :
    2 ^ 0 ∈ (perplexity_search
      (fun n => if n = 0 then .rate429 else .ok200 ("found"))).2 ∧
    (perplexity_search (fun n => if n = 0 then .rate429 else .ok200 ("found"))).1.success = true ∧
    (perplexity_search (fun n => if n = 0 then .rate429 else .ok200 ("found"))).1 =
      ⟨("found"), true, none⟩ := by
  refine ⟨?_, ?_, ?_⟩
  · exact perplexity_search_retry_contract.2.2.1 _ 0 (by omega) rfl (fun i hi c => by omega)
  · exact (perplexity_search_retry_contract.1 _).mpr ⟨1, by omega, ("found"), rfl⟩
  · exact perplexity_search_retry_contract.2.2.2 _ 1 ("found") (by omega) rfl
      (by intro i hi c' h; interval_cases i; simp at h)

/-!
## `ProgressTracker` — `backend/app/services/progress_tracker.py`

`self.subscribers` is a `defaultdict(list)` mapping job ids to the list of
`asyncio.Queue`s of current subscribers.  `publish` checks `job_id in
self.subscribers` and `await queue.put(event)`s to each queue of that job
(and only that job); `subscribe` creates a fresh empty queue and appends it;
`unsubscribe` removes the queue and deletes the entry once empty.

Queues are modelled by creation index (`nextQueue`), with their contents in
a separate `contents` map, since `asyncio.Queue` objects compare by identity.
-/

/-- A progress event as published by the pipeline: the dict
`{agent, status, message, detail?, progress, agentProgress?}` with the
progress fraction in hundredths. -/
structure Event where
  agent : String
  status : String
  message : String
  detail : Option String := none
  progress : Nat
  agentProgress : Option Nat := none
deriving DecidableEq

/-- The `ProgressTracker` singleton's state. -/
structure Tracker where
  subscribers : List (String × List Nat)
  contents : Nat → List Event
  nextQueue : Nat

/-- `self.subscribers[job]` when `job in self.subscribers` (no defaultdict
insertion on a read-only membership test). -/
def Tracker.queuesOf (t : Tracker) (job : String) : Option (List Nat) :=
  (t.subscribers.find? (fun p => p.1 == job)).map (fun p => p.2)

/-- `ProgressTracker.publish`: put the event on every queue currently
subscribed to `job`; no subscribers registered means the event is dropped. -/
def Tracker.publish (t : Tracker) (job : String) (e : Event) : Tracker :=
  match t.queuesOf job with
  | none => t
  | some qs =>
    { t with contents := fun q => if q ∈ qs then t.contents q ++ [e] else t.contents q }

/-- `ProgressTracker.subscribe`: a fresh empty queue appended to the job's
subscriber list (created by the defaultdict if absent); returns the queue. -/
def Tracker.subscribe (t : Tracker) (job : String) : Tracker × Nat :=
  let q := t.nextQueue
  let subs :=
    if (t.subscribers.find? (fun p => p.1 == job)).isSome then
      t.subscribers.map (fun p => if p.1 == job then (p.1, p.2 ++ [q]) else p)
    else
      t.subscribers ++ [(job, [q])]
  ({ subscribers := subs,
     contents := fun q' => if q' = q then [] else t.contents q',
     nextQueue := q + 1 }, q)

/-- `ProgressTracker.unsubscribe`: remove the queue (`list.remove`, a no-op
via the caught `ValueError` when absent) and delete the job entry if its
subscriber list became empty. -/
def Tracker.unsubscribe (t : Tracker) (job : String) (q : Nat) : Tracker :=
  if (t.subscribers.find? (fun p => p.1 == job)).isSome then
    let subs := t.subscribers.map (fun p => if p.1 == job then (p.1, p.2.erase q) else p)
    { t with subscribers := subs.filter (fun p => !(p.1 == job) || !p.2.isEmpty) }
  else t

/-- Well-formedness of a tracker state, maintained by construction in the
source: job keys are unique and no queue object is subscribed to two
different jobs (queues are freshly created in `subscribe`). -/
def Tracker.WF (t : Tracker) : Prop :=
  (t.subscribers.map Prod.fst).Nodup ∧
  t.subscribers.Pairwise (fun p p' => ∀ q ∈ p.2, q ∉ p'.2)

/-- A successful `find?` returns a member satisfying the predicate. -/
theorem find?_spec {α : Type} {p : α → Bool} :
    ∀ {l : List α} {a : α}, l.find? p = some a → a ∈ l ∧ p a = true := by
  intro l
  induction l with
  | nil => intro a h; simp [List.find?] at h
  | cons x xs ih =>
    intro a h
    cases hx : p x with
    | true =>
      rw [List.find?, hx] at h
      cases h
      exact ⟨List.mem_cons_self _ _, hx⟩
    | false =>
      rw [List.find?, hx] at h
      obtain ⟨hm, hp⟩ := ih h
      exact ⟨List.mem_cons_of_mem _ hm, hp⟩

/-- The queue list `queuesOf` returns is the one stored for that job. -/
theorem queuesOf_mem {t : Tracker} {job : String} {qs : List Nat}
    (h : t.queuesOf job = some qs) : (job, qs) ∈ t.subscribers := by
  unfold Tracker.queuesOf at h
  cases hf : t.subscribers.find? (fun p => p.1 == job) with
  | none => simp [hf] at h
  | some p =>
    simp only [hf, Option.map_some'] at h
    obtain ⟨hm, hp⟩ := find?_spec hf
    have h1 : p.1 = job := by simpa using hp
    obtain ⟨p1, p2⟩ := p
    simp only at h h1
    cases h
    subst h1
    exact hm

/-- In a well-formed tracker a queue subscribed to one job is not subscribed
to a different job. -/
theorem wf_cross {t : Tracker} (hwf : t.WF) {job job' : String} {qs qs' : List Nat} {q : Nat}
    (hne : job ≠ job') (h1 : t.queuesOf job = some qs) (h2 : t.queuesOf job' = some qs')
    (hq : q ∈ qs') : q ∉ qs := by
  have hm1 := queuesOf_mem h1
  have hm2 := queuesOf_mem h2
  have hsym : Symmetric (fun p p' : String × List Nat => ∀ q ∈ p.2, q ∉ p'.2) := by
    intro p p' h a ha hap
    exact h a hap ha
  have hR := hwf.2.forall hsym hm2 hm1 (by intro hc; exact hne (congrArg Prod.fst hc).symm)
  intro hqs
  exact hR q hq hqs

/-- C6: `publish(jobId, event)` enqueues the event exactly once onto every
queue currently subscribed to that job and onto no other queue (in
particular none subscribed to a different job); with no subscriber
registered, the tracker is unchanged — the event is dropped and a later
subscriber's fresh queue never contains it. -/
theorem progress_tracker_publish_contract :
    (∀ t : Tracker, ∀ job e qs, t.queuesOf job = some qs →
      (∀ q ∈ qs, (t.publish job e).contents q = t.contents q ++ [e]) ∧
      (∀ q, q ∉ qs → (t.publish job e).contents q = t.contents q)) ∧
    (∀ t : Tracker, t.WF → ∀ job job' e qs qs' q, job ≠ job' →
      t.queuesOf job = some qs → t.queuesOf job' = some qs' → q ∈ qs' →
      (t.publish job e).contents q = t.contents q) ∧
    (∀ t : Tracker, ∀ job e, t.queuesOf job = none →
      t.publish job e = t ∧
      ((t.publish job e).subscribe job).1.contents ((t.publish job e).subscribe job).2 = []) := by
  refine ⟨?_, ?_, ?_⟩
  · intro t job e qs h
    constructor
    · intro q hq
      simp [Tracker.publish, h, hq]
    · intro q hq
      simp [Tracker.publish, h, hq]
  · intro t hwf job job' e qs qs' q hne h1 h2 hq
    have hnot := wf_cross hwf hne h1 h2 hq
    simp [Tracker.publish, h1, hnot]
  · intro t job e h
    have hp : t.publish job e = t := by simp [Tracker.publish, h]
    refine ⟨hp, ?_⟩
    rw [hp]
    simp [Tracker.subscribe]

/-- Witness for C6 on a concrete tracker with a subscriber for job `"X"` and
one for job `"Y"`: publishing to `"X"` appends to queue 0 and leaves queue 1
(job `"Y"`'s) untouched. -/
theorem progress_tracker_publish_contract_witness :
    (Tracker.publish ⟨[(("X"), [0]), (("Y"), [1])], fun _ => [], 2⟩ ("X")
        ⟨("system"), ("running"), ("m"), none, 0, none⟩).contents 0 = [⟨("system"), ("running"), ("m"), none, 0, none⟩] ∧
    (Tracker.publish ⟨[(("X"), [0]), (("Y"), [1])], fun _ => [], 2⟩ ("X")
        ⟨("system"), ("running"), ("m"), none, 0, none⟩).contents 1 = [] := by
  constructor
  · exact (progress_tracker_publish_contract.1 ⟨[(("X"), [0]), (("Y"), [1])], fun _ => [], 2⟩
      ("X") ⟨("system"), ("running"), ("m"), none, 0, none⟩ [0] (by decide)).1 0 (by decide)
  · exact progress_tracker_publish_contract.2.1 ⟨[(("X"), [0]), (("Y"), [1])], fun _ => [], 2⟩
      (by constructor
          · simp
          · simp)
      ("X") ("Y") ⟨("system"), ("running"), ("m"), none, 0, none⟩ [0] [1] 1 (by decide)
      (by decide) (by decide) (by decide)

/-!
## `merge_dicts` and single-writer slots — `backend/app/agents/state.py`, lines 12-52

```python
def merge_dicts(left, right):
    if left is None: return right
    if right is None: return left
    return {**left, **right}
```

Each parallel agent returns an update containing only its own output key plus
its own `agent_progress` entry; LangGraph combines concurrent updates to an
`Annotated` channel by folding the reducer (`merge_dicts`) over them in
arrival order.  Python dicts are modelled as insertion-ordered association
lists whose lookup takes the last binding (so `{**l, **r}` is concatenation),
and dict equality is lookup equality, as in Python.
-/

/-- A Python dict keyed by strings, as an insertion-ordered association list. -/
abbrev PyDict (α : Type) := List (String × α)

/-- Dictionary lookup: the value of the last binding of `k`. -/
def dget {α : Type} (d : PyDict α) (k : String) : Option α :=
  d.foldl (fun acc p => if p.1 = k then some p.2 else acc) none

/-- `d.keys()`. -/
def dkeys {α : Type} (d : PyDict α) : List String := d.map Prod.fst

/-- Python `{**l, **r}` (right takes precedence on lookup). -/
def pyUnion {α : Type} (l r : PyDict α) : PyDict α := l ++ r

/-- `merge_dicts` from `state.py`. -/
def merge_dicts {α : Type} : Option (PyDict α) → Option (PyDict α) → Option (PyDict α)
  | none, right => right
  | left, none => left
  | some l, some r => some (pyUnion l r)

/-- The two dicts bind disjoint key sets. -/
def DisjointKeys {α : Type} (l r : PyDict α) : Prop := ∀ k ∈ dkeys l, k ∉ dkeys r

instance {α : Type} [DecidableEq α] (l r : PyDict α) : Decidable (DisjointKeys l r) :=
  inferInstanceAs (Decidable (∀ k ∈ dkeys l, k ∉ dkeys r))

/-- Lookup through `merge_dicts`' optional result. -/
def oget {α : Type} : Option (PyDict α) → String → Option α
  | none, _ => none
  | some d, k => dget d k

/-- Folding `dget`'s accumulator from an arbitrary seed. -/
theorem dget_foldl_init {α : Type} (k : String) :
    ∀ (r : PyDict α) (a : Option α),
      r.foldl (fun acc p => if p.1 = k then some p.2 else acc) a =
        match dget r k with
        | some v => some v
        | none => a := by
  intro r
  induction r with
  | nil => intro a; simp [dget]
  | cons p r ih =>
    intro a
    show r.foldl _ (if p.1 = k then some p.2 else a) = _
    rw [ih]
    have hd : dget (p :: r) k =
        match dget r k with
        | some v => some v
        | none => (if p.1 = k then some p.2 else none) := by
      show r.foldl _ (if p.1 = k then some p.2 else none) = _
      rw [ih]
    rw [hd]
    cases dget r k with
    | some v => rfl
    | none => by_cases hp : p.1 = k <;> simp [hp]

/-- Unfolding `dget` over a cons cell. -/
theorem dget_cons {α : Type} (p : String × α) (d : PyDict α) (k : String) :
    dget (p :: d) k =
      match dget d k with
      | some v => some v
      | none => if p.1 = k then some p.2 else none := by
  show d.foldl _ (if p.1 = k then some p.2 else none) = _
  rw [dget_foldl_init]

/-- Lookup in a concatenation: the right dict wins. -/
theorem dget_append {α : Type} (l r : PyDict α) (k : String) :
    dget (l ++ r) k =
      match dget r k with
      | some v => some v
      | none => dget l k := by
  show (l ++ r).foldl _ none = _
  rw [List.foldl_append]
  exact dget_foldl_init k r (dget l k)

/-- A key is absent exactly when the lookup misses. -/
theorem dget_none_iff {α : Type} (d : PyDict α) (k : String) :
    dget d k = none ↔ k ∉ dkeys d := by
  induction d with
  | nil => simp [dget, dkeys]
  | cons p d ih =>
    rw [dget_cons]
    cases hd : dget d k with
    | some v =>
      have hk : k ∈ dkeys d := by
        by_contra hk
        rw [← ih] at hk
        rw [hk] at hd
        cases hd
      constructor
      · intro h
        cases h
      · intro h
        exact absurd (List.mem_cons_of_mem p.1 hk) h
    | none =>
      have hk : k ∉ dkeys d := ih.mp hd
      by_cases hp : p.1 = k <;> simp [hp, dkeys] at hk ⊢ <;> tauto

/-- A successful lookup means the key is bound. -/
theorem dget_some_mem_keys {α : Type} {d : PyDict α} {k : String} {v : α}
    (h : dget d k = some v) : k ∈ dkeys d := by
  by_contra hk
  rw [← dget_none_iff] at hk
  rw [hk] at h
  cases h

/-- `{**l, **r}` and `{**r, **l}` agree on every key when the key sets are
disjoint. -/
theorem pyUnion_comm_disjoint {α : Type} (l r : PyDict α) (hd : DisjointKeys l r) (k : String) :
    dget (pyUnion l r) k = dget (pyUnion r l) k := by
  unfold pyUnion
  rw [dget_append, dget_append]
  cases hl : dget l k with
  | some v =>
    have hkl := dget_some_mem_keys hl
    have hkr : k ∉ dkeys r := hd k hkl
    rw [(dget_none_iff r k).mpr hkr]
  | none =>
    cases hr : dget r k <;> rfl

/-- `findSome?` misses exactly when every element does. -/
theorem findSome?_none_iff {α β : Type} (f : α → Option β) :
    ∀ (l : List α), l.findSome? f = none ↔ ∀ a ∈ l, f a = none := by
  intro l
  induction l with
  | nil => simp
  | cons x xs ih =>
    rw [List.findSome?]
    cases hx : f x with
    | some v => simp [hx]
    | none => simp [hx, ih]

/-- A `findSome?` hit comes from some element. -/
theorem findSome?_some_ex {α β : Type} {f : α → Option β} :
    ∀ {l : List α} {v : β}, l.findSome? f = some v → ∃ a ∈ l, f a = some v := by
  intro l
  induction l with
  | nil => intro v h; simp at h
  | cons x xs ih =>
    intro v h
    rw [List.findSome?] at h
    cases hx : f x with
    | some w =>
      rw [hx] at h
      cases h
      exact ⟨x, List.mem_cons_self _ _, hx⟩
    | none =>
      rw [hx] at h
      obtain ⟨a, ha, hfa⟩ := ih h
      exact ⟨a, List.mem_cons_of_mem _ ha, hfa⟩

/-- An element hit forces `findSome?` to hit. -/
theorem findSome?_isSome_of_hit {α β : Type} {f : α → Option β} :
    ∀ {l : List α} {a : α} {v : β}, a ∈ l → f a = some v → ∃ w, l.findSome? f = some w := by
  intro l
  induction l with
  | nil => intro a v h; cases h
  | cons x xs ih =>
    intro a v ha hv
    rw [List.findSome?]
    cases hx : f x with
    | some w => exact ⟨w, rfl⟩
    | none =>
      rcases List.mem_cons.mp ha with h | h
      · subst h; rw [hx] at hv; cases hv
      · exact ih h hv

/-- On pairwise key-disjoint updates a key is bound by at most one update. -/
theorem at_most_one_hit {α : Type} {k : String} :
    ∀ {us : List (PyDict α)}, us.Pairwise DisjointKeys →
      ∀ {v w : α}, (∃ u ∈ us, dget u k = some v) → (∃ u ∈ us, dget u k = some w) → v = w := by
  intro us
  induction us with
  | nil =>
    rintro _ v w ⟨u, hu, -⟩
    cases hu
  | cons u0 us ih =>
    intro hp v w h1 h2
    rw [List.pairwise_cons] at hp
    obtain ⟨hhead, htail⟩ := hp
    obtain ⟨u1, hu1, hv⟩ := h1
    obtain ⟨u2, hu2, hw⟩ := h2
    rcases List.mem_cons.mp hu1 with h1' | h1' <;> rcases List.mem_cons.mp hu2 with h2' | h2'
    · subst h1'; subst h2'
      rw [hv] at hw
      cases hw
      rfl
    · subst h1'
      exact absurd (dget_some_mem_keys hw) (hhead u2 h2' k (dget_some_mem_keys hv))
    · subst h2'
      exact absurd (dget_some_mem_keys hv) (hhead u1 h1' k (dget_some_mem_keys hw))
    · exact ih htail ⟨u1, h1', hv⟩ ⟨u2, h2', hw⟩

/-- Under pairwise key-disjointness, `findSome?` of lookups is invariant
under permutation. -/
theorem findSome?_perm_disj {α : Type} {k : String} {us us' : List (PyDict α)}
    (hperm : us.Perm us') (hp : us.Pairwise DisjointKeys) :
    us.findSome? (fun u => dget u k) = us'.findSome? (fun u => dget u k) := by
  cases hfs : us.findSome? (fun u => dget u k) with
  | none =>
    have hall := (findSome?_none_iff _ us).mp hfs
    symm
    rw [findSome?_none_iff]
    intro a ha
    exact hall a (hperm.mem_iff.mpr ha)
  | some v =>
    obtain ⟨u, hu, hv⟩ := findSome?_some_ex hfs
    obtain ⟨w, hw⟩ := findSome?_isSome_of_hit (hperm.mem_iff.mp hu) hv
    obtain ⟨u', hu', hv'⟩ := findSome?_some_ex hw
    have hvw := at_most_one_hit hp ⟨u, hu, hv⟩ ⟨u', hperm.mem_iff.mpr hu', hv'⟩
    subst hvw
    exact hw.symm

/-- Folding pairwise-disjoint updates: each key is decided by the unique
update binding it (or the initial state). -/
theorem dget_foldl_union {α : Type} (k : String) :
    ∀ (us : List (PyDict α)), us.Pairwise DisjointKeys → ∀ (init : PyDict α),
      dget (us.foldl pyUnion init) k =
        match us.findSome? (fun u => dget u k) with
        | some v => some v
        | none => dget init k := by
  intro us
  induction us with
  | nil => intro _ init; simp
  | cons u us ih =>
    intro hp init
    rw [List.pairwise_cons] at hp
    obtain ⟨hhead, htail⟩ := hp
    show dget (us.foldl pyUnion (pyUnion init u)) k = _
    rw [ih htail (pyUnion init u)]
    rw [List.findSome?]
    cases hu : dget u k with
    | some v =>
      have hnone : us.findSome? (fun u' => dget u' k) = none := by
        rw [findSome?_none_iff]
        intro u' hu'
        rw [dget_none_iff]
        exact hhead u' hu' k (dget_some_mem_keys hu)
      rw [hnone]
      unfold pyUnion
      rw [dget_append, hu]
    | none =>
      cases hfs : us.findSome? (fun u' => dget u' k) with
      | some v => rfl
      | none =>
        unfold pyUnion
        rw [dget_append, hu]

/-- C5: `merge_dicts` treats `None` as an identity, is commutative (on dict
equality, i.e. pointwise lookup) on dicts with disjoint key sets, and merging
any number of pairwise slot-disjoint step updates into the shared state in
any order yields the same final state. -/
theorem merge_dicts_single_writer {α : Type} :
    (∀ d : Option (PyDict α), merge_dicts none d = d ∧ merge_dicts d none = d) ∧
    (∀ l r : PyDict α, DisjointKeys l r → ∀ k,
      oget (merge_dicts (some l) (some r)) k = oget (merge_dicts (some r) (some l)) k) ∧
    (∀ us us' : List (PyDict α), us.Perm us' → us.Pairwise DisjointKeys →
      ∀ (init : PyDict α) (k : String),
        dget (us.foldl pyUnion init) k = dget (us'.foldl pyUnion init) k) := by
  refine ⟨?_, ?_, ?_⟩
  · intro d
    exact ⟨by cases d <;> rfl, by cases d <;> rfl⟩
  · intro l r hd k
    exact pyUnion_comm_disjoint l r hd k
  · intro us us' hperm hp init k
    have hsym : Symmetric (α := PyDict α) DisjointKeys := by
      intro u u' h a ha ha'
      exact h a ha' ha
    have hp' : us'.Pairwise DisjointKeys := (hperm.pairwise_iff (fun h => hsym h)).mp hp
    rw [dget_foldl_union k us hp init, dget_foldl_union k us' hp' init,
      findSome?_perm_disj hperm hp]

/-- Witness for C5 on two concrete single-slot agent updates applied in both
orders. -/
theorem merge_dicts_single_writer_witness :
    oget (merge_dicts (some [(("market_analysis"), 1)]) (some [(("supplier_summary"), 2)]))
        ("market_analysis") =
      oget (merge_dicts (some [(("supplier_summary"), 2)]) (some [(("market_analysis"), 1)]))
        ("market_analysis") ∧
    dget (List.foldl pyUnion ([] : PyDict Nat)
        [[(("market_analysis"), 1)], [(("supplier_summary"), 2)]]) ("supplier_summary") =
      dget (List.foldl pyUnion ([] : PyDict Nat)
        [[(("supplier_summary"), 2)], [(("market_analysis"), 1)]]) ("supplier_summary") := by
  constructor
  · exact merge_dicts_single_writer.2.1 [(("market_analysis"), 1)] [(("supplier_summary"), 2)]
      (by decide) ("market_analysis")
  · exact merge_dicts_single_writer.2.2
      [[(("market_analysis"), 1)], [(("supplier_summary"), 2)]]
      [[(("supplier_summary"), 2)], [(("market_analysis"), 1)]]
      (List.Perm.swap _ _ _) (by decide) [] ("supplier_summary")

/-!
## Agent LLM-response parsing
`market_analysis.py` lines 184-216, `supplier_summary.py` lines 184-236,
`action_items.py` lines 188-246.
-/

/-- The marker-based extraction of `market_analysis_node` (lines 184-216):
from the LLM response text produce `(alternatives_overview,
price_positioning, key_risks)`, with `key_risks` truncated and padded to
exactly 3 entries (lines 206-209).  `parts[0].split("ALTERNATIVES
OVERVIEW:")[1]` (line 193) raises `IndexError` when the marker occurs in the
text but not before the first `"PRICE POSITIONING:"`; that raise is modelled
as `Except.error ()` (caught by the node's `except` handler). -/
def marketExtract (response_text : PyStr) : Except Unit (PyStr × PyStr × List PyStr) :=
  let finalize := fun (ao pp : PyStr) (kr : List PyStr) =>
    let kr := kr.take 3
    let kr := kr ++ List.replicate (3 - kr.length) (pyOf ("Additional market analysis recommended"))
    Except.ok (ao, pp, kr)
  let alternatives_overview := pyOf ("No alternatives analysis available")
  let price_positioning := pyOf ("Insufficient data for price positioning")
  let key_risks := [pyOf ("Market data unavailable"), pyOf ("Limited competitive intelligence"),
    pyOf ("Unable to assess positioning")]
  if pyContains response_text (pyOf ("ALTERNATIVES OVERVIEW:")) then
    let parts := pySplit response_text (pyOf ("PRICE POSITIONING:"))
    match (pySplit (parts.headD []) (pyOf ("ALTERNATIVES OVERVIEW:"))).get? 1 with
    | none => Except.error ()
    | some seg =>
      let alternatives_overview := pyStrip seg
      if 2 ≤ parts.length then
        let risk_parts := pySplit (parts.getD 1 []) (pyOf ("KEY RISK"))
        let price_positioning := pyStrip (risk_parts.headD [])
        let key_risks := risk_parts.tail.map (fun risk_part =>
          let risk_text := if pyContains risk_part (pyOf (":"))
            then pyStrip (pyAfterFirst risk_part (pyOf (":")))
            else pyStrip risk_part
          pyStrip ((pySplit risk_text (pyOf ("\n"))).headD []))
        finalize alternatives_overview price_positioning key_risks
      else
        finalize alternatives_overview price_positioning key_risks
  else
    finalize alternatives_overview price_positioning key_risks

/-- The response texts on which `market_analysis_node`'s extraction does
not raise: either the `"ALTERNATIVES OVERVIEW:"` marker is absent, or it
occurs before the first `"PRICE POSITIONING:"`. -/
def marketMarkerOk (t : PyStr) : Prop :=
  ¬ pyContains t (pyOf ("ALTERNATIVES OVERVIEW:")) ∨
    2 ≤ (pySplit ((pySplit t (pyOf ("PRICE POSITIONING:"))).headD [])
          (pyOf ("ALTERNATIVES OVERVIEW:"))).length

instance (t : PyStr) : Decidable (marketMarkerOk t) :=
  inferInstanceAs (Decidable (¬ pyContains t (pyOf ("ALTERNATIVES OVERVIEW:")) ∨
    2 ≤ (pySplit ((pySplit t (pyOf ("PRICE POSITIONING:"))).headD [])
          (pyOf ("ALTERNATIVES OVERVIEW:"))).length))

/-- Truncating to `n` then padding back to `n` yields length exactly `n`. -/
theorem pad_take_length {α : Type} (l : List α) (n : Nat) (fill : α) :
    ((l.take n) ++ List.replicate (n - (l.take n).length) fill).length = n := by
  rw [List.length_append, List.length_take, List.length_replicate]
  omega

/-- On marker-compatible texts the market extraction returns and its
`key_risks` list has exactly 3 entries. -/
theorem marketExtract_ok_risks (t : PyStr) (h : marketMarkerOk t) :
    ∃ ao pp kr, marketExtract t = Except.ok (ao, pp, kr) ∧ kr.length = 3 := by
  unfold marketExtract
  by_cases hc : pyContains t (pyOf ("ALTERNATIVES OVERVIEW:"))
  · rcases h with h | h
    · exact absurd hc h
    · simp only [hc, if_true]
      cases hg : (pySplit ((pySplit t (pyOf ("PRICE POSITIONING:"))).headD [])
          (pyOf ("ALTERNATIVES OVERVIEW:"))).get? 1 with
      | none =>
        rw [List.get?_eq_none] at hg
        omega
      | some seg =>
        by_cases h2 : 2 ≤ (pySplit t (pyOf ("PRICE POSITIONING:"))).length
        · simp only [h2, if_true]
          exact ⟨_, _, _, rfl, pad_take_length _ 3 _⟩
        · simp only [h2, if_false]
          exact ⟨_, _, _, rfl, pad_take_length _ 3 _⟩
  · simp only [hc, if_false]
    exact ⟨_, _, _, rfl, pad_take_length _ 3 _⟩


/-- The structured profile `supplier_summary_node` builds from the LLM
response (lines 184-251). -/
structure SupplierProfile where
  description : PyStr
  size : Option PyStr
  location : Option PyStr
  industry : Option PyStr
  key_facts : List PyStr
  recent_news : List PyStr
  contact_info : PyStr

/-- The repeated `text.lower() != "not available"` test. -/
def notAvailable (cs : PyStr) : Bool := pyLower cs == pyOf ("not available")

/-- One iteration of the `for line in lines` scan of `supplier_summary_node`
(lines 196-221). -/
def supplierLineStep (acc : SupplierProfile) (rawLine : PyStr) : SupplierProfile :=
  let line := pyStrip rawLine
  if startsWithL line (pyOf ("DESCRIPTION:")) then
    { acc with description := pyStrip (pyAfterFirst line (pyOf ("DESCRIPTION:"))) }
  else if startsWithL line (pyOf ("SIZE:")) then
    let size_text := pyStrip (pyAfterFirst line (pyOf ("SIZE:")))
    { acc with size := if notAvailable size_text then none else some size_text }
  else if startsWithL line (pyOf ("LOCATION:")) then
    let location_text := pyStrip (pyAfterFirst line (pyOf ("LOCATION:")))
    { acc with location := if notAvailable location_text then none else some location_text }
  else if startsWithL line (pyOf ("INDUSTRY:")) then
    let industry_text := pyStrip (pyAfterFirst line (pyOf ("INDUSTRY:")))
    { acc with industry := if notAvailable industry_text then none else some industry_text }
  else if startsWithL line (pyOf ("FACT")) then
    let fact_text := if pyContains line (pyOf (":"))
      then pyStrip (pyAfterFirst line (pyOf (":"))) else line
    if fact_text ≠ [] ∧ ¬ notAvailable fact_text then
      { acc with key_facts := acc.key_facts ++ [fact_text] }
    else acc
  else if startsWithL line (pyOf ("NEWS")) then
    let news_text := if pyContains line (pyOf (":"))
      then pyStrip (pyAfterFirst line (pyOf (":"))) else line
    if news_text ≠ [] ∧ ¬ notAvailable news_text then
      { acc with recent_news := acc.recent_news ++ [news_text] }
    else acc
  else if startsWithL line (pyOf ("CONTACT:")) then
    let contact_text := pyStrip (pyAfterFirst line (pyOf ("CONTACT:")))
    if contact_text ≠ [] ∧ ¬ notAvailable contact_text then
      { acc with contact_info := contact_text }
    else acc
  else acc

/-- `supplier_summary_node`'s response parsing (lines 186-236): scan the
lines, fall back to singleton lists when nothing was found (lines 223-227),
then truncate/pad `key_facts` to exactly 5 and `recent_news` to exactly 3
(lines 229-236). -/
def supplierExtract (supplier_name supplier_contact response_text : PyStr) : SupplierProfile :=
  let init : SupplierProfile :=
    { description := pyOf ("No description available"), size := none, location := none,
      industry := none, key_facts := [], recent_news := [],
      contact_info := if supplier_contact ≠ [] then supplier_contact
        else pyOf ("Contact information not available") }
  let acc := (pySplit response_text (pyOf ("\n"))).foldl supplierLineStep init
  let key_facts := if acc.key_facts = [] then [pyOf ("Supplier: ") ++ supplier_name]
    else acc.key_facts
  let recent_news := if acc.recent_news = [] then [pyOf ("No recent news available")]
    else acc.recent_news
  let key_facts := key_facts.take 5
  let key_facts := key_facts ++
    List.replicate (5 - key_facts.length) (pyOf ("Additional information not available"))
  let recent_news := recent_news.take 3
  let recent_news := recent_news ++
    List.replicate (3 - recent_news.length) (pyOf ("No additional news available"))
  { acc with key_facts := key_facts, recent_news := recent_news }

/-- The supplier profile always carries exactly 5 facts and 3 news items. -/
theorem supplierExtract_counts (name contact t : PyStr) :
    (supplierExtract name contact t).key_facts.length = 5 ∧
    (supplierExtract name contact t).recent_news.length = 3 := by
  unfold supplierExtract
  exact ⟨pad_take_length _ 5 _, pad_take_length _ 3 _⟩

/-- An `ActionItem` (schemas.py): category, action text, recommended flag. -/
structure ActionItem where
  category : PyStr
  action : PyStr
  recommended : Bool
deriving DecidableEq

/-- One line of `action_items_node`'s response parsing (lines 195-222):
numbered lines (`1.` or `1)`) matching `\x5b([A-Z]+)\x5d\s*(.*)` with a valid
category yield an item; the `(RECOMMENDED)` marker is detected
case-insensitively and removed from the action text. -/
def actionLineParse (rawLine : PyStr) : Option ActionItem :=
  let line := pyStrip rawLine
  if line ≠ [] ∧ 2 < line.length then
    match line with
    | c0 :: c1 :: _ =>
      if c0.isDigit ∧ (c1 = '.' ∨ c1 = ')') then
        match pyStrip (line.drop 2) with
        | '[' :: rest =>
          let cat := rest.takeWhile (fun c => 'A' ≤ c ∧ c ≤ 'Z')
          if cat ≠ [] ∧ startsWithL (rest.drop cat.length) (pyOf ("]")) then
            let remaining := pyStrip ((rest.drop (cat.length + 1)).dropWhile Char.isWhitespace)
            let is_recommended := pyContains (pyLower remaining) (pyOf ("(recommended)"))
            let action_text := pyStrip (pyRemoveCI remaining (pyOf ("(recommended)")))
            let category_raw := pyLower cat
            if category_raw = pyOf ("price") ∨ category_raw = pyOf ("terms") ∨
                category_raw = pyOf ("timeline") ∨ category_raw = pyOf ("scope") then
              some ⟨category_raw, action_text, is_recommended⟩
            else none
          else none
        | _ => none
      else none
    | _ => none
  else none

/-- `fallback_categories` (line 227). -/
def fallback_categories : List PyStr :=
  [pyOf ("price"), pyOf ("terms"), pyOf ("timeline"), pyOf ("scope"), pyOf ("terms")]

/-- The `while len(action_items_list) < 5` padding loop (lines 225-233),
with the number of missing items as fuel. -/
def padActionGo : Nat → List ActionItem → List ActionItem
  | 0, l => l
  | n + 1, l =>
    let category := fallback_categories.getD l.length []
    padActionGo n (l ++
      [⟨category, pyOf ("Review and address ") ++ category ++ pyOf (" requirements"), false⟩])

/-- Pad the parsed items with generic fallbacks until there are 5. -/
def padActionItems (l : List ActionItem) : List ActionItem := padActionGo (5 - l.length) l

/-- Lines 238-246: if the number of recommended items differs from 2, reset
every flag and mark the first two items recommended. -/
def fixRecommended (items : List ActionItem) : List ActionItem :=
  let recommended_count := items.countP (fun it => it.recommended)
  if recommended_count ≠ 2 then
    match items.map (fun it => { it with recommended := false }) with
    | a :: b :: rest =>
      { a with recommended := true } :: { b with recommended := true } :: rest
    | short => short
  else items

/-- `action_items_node`'s response parsing (lines 190-246): collect parsed
items in order, pad to 5, truncate to 5, then force exactly 2 recommended. -/
def actionExtract (response_text : PyStr) : List ActionItem :=
  let items := (pySplit response_text (pyOf ("\n"))).foldl
    (fun acc line =>
      match actionLineParse line with
      | some it => acc ++ [it]
      | none => acc) []
  fixRecommended ((padActionItems items).take 5)

theorem padActionGo_length : ∀ (n : Nat) (l : List ActionItem),
    (padActionGo n l).length = l.length + n := by
  intro n
  induction n with
  | zero => intro l; rfl
  | succ n ih =>
    intro l
    simp only [padActionGo]
    rw [ih, List.length_append]
    simp only [List.length_cons, List.length_nil]
    omega

/-- Resetting every `recommended` flag leaves zero recommended items. -/
theorem countP_map_false (l : List ActionItem) :
    (l.map (fun it => { it with recommended := false })).countP (fun it => it.recommended) = 0 := by
  induction l with
  | nil => rfl
  | cons a l ih => simpa [List.countP_cons] using ih

/-- The recommended-flag fix preserves the number of items. -/
theorem fixRecommended_length (l : List ActionItem) :
    (fixRecommended l).length = l.length := by
  unfold fixRecommended
  by_cases hc : l.countP (fun it => it.recommended) ≠ 2
  · rw [if_pos hc]
    cases hmap : l.map (fun it => { it with recommended := false }) with
    | nil =>
      have h := congrArg List.length hmap
      simp only [List.length_map, List.length_nil] at h
      show ([] : List ActionItem).length = l.length
      simp only [List.length_nil]
      omega
    | cons a tl =>
      cases tl with
      | nil =>
        have h := congrArg List.length hmap
        simp only [List.length_map, List.length_cons, List.length_nil] at h
        show [a].length = l.length
        simp only [List.length_cons, List.length_nil]
        omega
      | cons b rest =>
        have h := congrArg List.length hmap
        simp only [List.length_map, List.length_cons] at h
        show (_ :: _ :: rest).length = l.length
        simp only [List.length_cons]
        omega
  · rw [if_neg hc]

/-- After the fix exactly 2 items are recommended (the list has ≥ 2 items). -/
theorem fixRecommended_count (l : List ActionItem) (hlen : 2 ≤ l.length) :
    (fixRecommended l).countP (fun it => it.recommended) = 2 := by
  unfold fixRecommended
  by_cases hc : l.countP (fun it => it.recommended) ≠ 2
  · rw [if_pos hc]
    cases hmap : l.map (fun it => { it with recommended := false }) with
    | nil =>
      have h := congrArg List.length hmap
      simp only [List.length_map, List.length_nil] at h
      omega
    | cons a tl =>
      cases tl with
      | nil =>
        have h := congrArg List.length hmap
        simp only [List.length_map, List.length_cons, List.length_nil] at h
        omega
      | cons b rest =>
        have hall : ∀ x ∈ rest, ¬ (x.recommended = true) := by
          intro x hx
          have hx' : x ∈ l.map (fun it => { it with recommended := false }) := by
            rw [hmap]
            exact List.mem_cons_of_mem _ (List.mem_cons_of_mem _ hx)
          obtain ⟨y, -, hy⟩ := List.mem_map.mp hx'
          rw [← hy]
          simp
        have hrest : rest.countP (fun it => it.recommended) = 0 :=
          List.countP_eq_zero.mpr hall
        show (({ a with recommended := true } : ActionItem) ::
          ({ b with recommended := true } : ActionItem) :: rest).countP
            (fun it => it.recommended) = 2
        simp [List.countP_cons, hrest]
  · rw [if_neg hc]
    push_neg at hc
    exact hc

/-- Action-item parsing always produces exactly 5 items, 2 recommended. -/
theorem actionExtract_counts (t : PyStr) :
    (actionExtract t).length = 5 ∧
    (actionExtract t).countP (fun it => it.recommended) = 2 := by
  unfold actionExtract
  have hlen5 : ((padActionItems ((pySplit t (pyOf ("\n"))).foldl
      (fun acc line =>
        match actionLineParse line with
        | some it => acc ++ [it]
        | none => acc) [])).take 5).length = 5 := by
    rw [List.length_take]
    unfold padActionItems
    rw [padActionGo_length]
    omega
  constructor
  · rw [fixRecommended_length]
    exact hlen5
  · exact fixRecommended_count _ (by omega)

/-- C8 counterexample: on the response text
`"PRICE POSITIONING: x ALTERNATIVES OVERVIEW: y"` — where the
`"ALTERNATIVES OVERVIEW:"` marker occurs only after `"PRICE POSITIONING:"`
— `market_analysis`'s parsing raises `IndexError` (line 193:
`parts[0].split("ALTERNATIVES OVERVIEW:")[1]` on a 1-element list), so the
step produces an error contribution instead of a 3-element `key_risks`
list: the claim's "for every LLM response text" fails. -/
theorem market_risks_counterexample :
    marketExtract (pyOf ("PRICE POSITIONING: x ALTERNATIVES OVERVIEW: y")) = Except.error () := by
  rfl

/-- C8 (amended): `supplier_summary` yields exactly 5 `key_facts` and 3
`recent_news` items and `action_items` yields exactly 5 items with exactly 2
recommended, for every LLM response text; `market_analysis` yields exactly 3
`key_risks` for every response text except those in which
`"ALTERNATIVES OVERVIEW:"` occurs only after the first
`"PRICE POSITIONING:"` (on those its parsing raises `IndexError`, caught by
the step's handler, which records an error instead of producing output). -/
theorem fixed_size_outputs :
    (∀ name contact t : PyStr,
      (supplierExtract name contact t).key_facts.length = 5 ∧
      (supplierExtract name contact t).recent_news.length = 3) ∧
    (∀ t : PyStr, (actionExtract t).length = 5 ∧
      (actionExtract t).countP (fun it => it.recommended) = 2) ∧
    (∀ t : PyStr, marketMarkerOk t →
      ∃ ao pp kr, marketExtract t = Except.ok (ao, pp, kr) ∧ kr.length = 3) := by
  exact ⟨supplierExtract_counts, actionExtract_counts, marketExtract_ok_risks⟩

/-- Witness for C8 at a concrete marker-free response text. -/
theorem fixed_size_outputs_witness :
    ∃ ao pp kr, marketExtract (pyOf ("no markers here")) = Except.ok (ao, pp, kr) ∧
      kr.length = 3 :=
  fixed_size_outputs.2.2 (pyOf ("no markers here")) (by decide)

/-!
## The agent nodes — `parse.py`, `supplier_summary.py`, `market_analysis.py`,
`offer_analysis.py`, `outcome_assessment.py`, `action_items.py`

Each parallel agent node publishes a start event, then runs its body inside
`try`, returning on success a dict containing only its own output slot plus
its own `agent_progress` entry, and on any exception an `{"errors": [msg]}`
update — the `except Exception` handler at the foot of each node.  The
fallible internal work (the LLM call and, for `market_analysis`, the
marker parsing) is passed in as an `Except` value; the Perplexity searches
never raise (see `perplexity_search` above) and only feed the prompt text,
not the output payload.
-/

/-- The slice of the validated `form_data` the agents read
(`supplier_contact` is read with `.get("supplier_contact", "")`). -/
structure FormDataD where
  supplier_name : PyStr
  supplier_contact : PyStr := []
  product_type : PyStr
  offer_price : PyStr
  target_price : PyStr
  max_price : PyStr
  value_assessment : PyStr
deriving DecidableEq

/-- An alternative supplier extracted from the alternatives PDF. -/
structure AltD where
  name : PyStr
  description : Option PyStr := none
deriving DecidableEq

/-- The `ParsedInput` dict produced by the parse node. -/
structure ParsedInputD where
  supplier_offer_text : PyStr
  initial_request_text : PyStr
  alternatives_text : Option PyStr
  alternatives : List AltD
  form_data : FormDataD
deriving DecidableEq

/-- What a parallel agent node returns to LangGraph: the mutated full state
(the missing-dependency branch's `return state` with one message appended to
`state["errors"]`), a patch containing only its own output slot plus its
`agent_progress` entry, or an `{"errors": [msg]}` patch from the `except`
handler.  There is no constructor for a propagated exception: every branch
of the source returns normally. -/
inductive AgentRet (α : Type)
  | stateWithError (msg : String)
  | output (payload : α) (agent_progress : Nat)
  | errorsPatch (msg : String)
deriving DecidableEq

/-- `market_analysis_node` (`market_analysis.py` lines 26-249), as a function
of the parsed input slot and the LLM call's outcome (`chain.ainvoke`,
line 175; an exception there or in the marker parsing is caught by the
`except` at line 234).  Returns the node's state update and its published
events. -/
def market_analysis_node (parsed_input : Option ParsedInputD)
    (llm : Except String PyStr) :
    AgentRet (PyStr × PyStr × List PyStr) × List Event :=
  let start : Event := ⟨("market_analysis"), ("running"), ("Starting market analysis..."),
    some ("Researching competitive landscape"), 15, some 0⟩
  match parsed_input with
  | none => (.stateWithError ("Missing parsed_input"), [start])
  | some pi =>
    let e18 : Event := ⟨("market_analysis"), ("running"),
      ("Researching alternatives and pricing..."),
      some (("Comparing ") ++ String.mk pi.form_data.supplier_name ++ (" to market")),
      18, some 20⟩
    let e25 : Event := ⟨("market_analysis"), ("running"),
      ("Research complete, analyzing data..."),
      some ("Using GPT to synthesize findings"), 25, some 50⟩
    let fail : String → AgentRet (PyStr × PyStr × List PyStr) × List Event := fun m =>
      let msg := ("Market analysis error: ") ++ m
      (.errorsPatch msg,
        [start, e18, e25,
          ⟨("market_analysis"), ("error"), ("Market analysis failed"), some msg, 15, some 0⟩])
    match llm with
    | .error m => fail m
    | .ok response_text =>
      match marketExtract response_text with
      | .error () => fail ("list index out of range")
      | .ok ma =>
        (.output ma 100,
          [start, e18, e25,
            ⟨("market_analysis"), ("completed"), ("âœ“ Market analysis complete"),
              some (("Analyzed ") ++ toString pi.alternatives.length ++ (" alternatives")),
              35, some 100⟩])

/-- `supplier_summary_node` (`supplier_summary.py` lines 25-285). -/
def supplier_summary_node (parsed_input : Option ParsedInputD)
    (llm : Except String PyStr) : AgentRet SupplierProfile × List Event :=
  let start : Event := ⟨("supplier_summary"), ("running"), ("Starting supplier research..."),
    some ("Initializing Perplexity searches"), 15, some 0⟩
  match parsed_input with
  | none => (.stateWithError ("Missing parsed_input"), [start])
  | some pi =>
    let name := pi.form_data.supplier_name
    let e17 : Event := ⟨("supplier_summary"), ("running"), ("Researching company profile..."),
      some (("Searching for ") ++ String.mk name), 17, some 20⟩
    let e25 : Event := ⟨("supplier_summary"), ("running"),
      ("Research complete, synthesizing with GPT..."),
      some ("Structuring supplier profile"), 25, some 50⟩
    match llm with
    | .error m =>
      let msg := ("Supplier summary error: ") ++ m
      (.errorsPatch msg,
        [start, e17, e25,
          ⟨("supplier_summary"), ("error"), ("Supplier research failed"), some msg, 15, some 0⟩])
    | .ok response_text =>
      (.output (supplierExtract name pi.form_data.supplier_contact response_text) 100,
        [start, e17, e25,
          ⟨("supplier_summary"), ("completed"), ("✓ Supplier research complete"),
            some (("Profile for ") ++ String.mk name ++ (" ready")), 35, some 100⟩])

/-- `action_items_node` (`action_items.py` lines 25-282).  The Perplexity
search result only feeds the prompt; the LLM outcome decides the payload. -/
def action_items_node (parsed_input : Option ParsedInputD)
    (llm : Except String PyStr) : AgentRet (List ActionItem) × List Event :=
  let start : Event := ⟨("action_items"), ("running"), ("Generating action items..."),
    some ("Researching best practices"), 15, some 0⟩
  match parsed_input with
  | none => (.stateWithError ("Missing parsed_input"), [start])
  | some pi =>
    let e18 : Event := ⟨("action_items"), ("running"), ("Researching best practices..."),
      some (("Looking up ") ++ String.mk pi.form_data.product_type ++ (" negotiation checklists")),
      18, some 20⟩
    let e25 : Event := ⟨("action_items"), ("running"), ("Research complete, generating items..."),
      some ("Creating prioritized action list"), 25, some 50⟩
    match llm with
    | .error m =>
      let msg := ("Action items error: ") ++ m
      (.errorsPatch msg,
        [start, e18, e25,
          ⟨("action_items"), ("error"), ("Action items generation failed"), some msg, 15, some 0⟩])
    | .ok response_text =>
      (.output (actionExtract response_text) 100,
        [start, e18, e25,
          ⟨("action_items"), ("completed"), ("âœ“ Action items ready"),
            some ("5 priority actions identified"), 35, some 100⟩])

/-- C3: for every step and every outcome of its fallible internal work
(collaborator exception, missing dependency data, malformed LLM output —
all modelled by the `parsed_input`/`llm` arguments), the step's run function
returns normally with one of the three `AgentRet` shapes: the
missing-dependency state update appending exactly the one message
`"Missing parsed_input"`, a payload in its own output slot, or an
`errors`-patch containing exactly one message (the node's
`"<step> error: <exception>"`); no constructor of the return type conveys a
propagated exception. -/
theorem step_boundary_no_raise :
    (∀ (pi : Option ParsedInputD) (llm : Except String PyStr),
      (pi = none → (market_analysis_node pi llm).1 = .stateWithError ("Missing parsed_input")) ∧
      (∀ m, llm = .error m → pi ≠ none →
        (market_analysis_node pi llm).1 = .errorsPatch (("Market analysis error: ") ++ m)) ∧
      ((∃ p g, (market_analysis_node pi llm).1 = .output p g) ∨
        (∃ m, (market_analysis_node pi llm).1 = .stateWithError m) ∨
        (∃ m, (market_analysis_node pi llm).1 = .errorsPatch m))) ∧
    (∀ (pi : Option ParsedInputD) (llm : Except String PyStr),
      (pi = none → (supplier_summary_node pi llm).1 = .stateWithError ("Missing parsed_input")) ∧
      (∀ m, llm = .error m → pi ≠ none →
        (supplier_summary_node pi llm).1 = .errorsPatch (("Supplier summary error: ") ++ m)) ∧
      ((∃ p g, (supplier_summary_node pi llm).1 = .output p g) ∨
        (∃ m, (supplier_summary_node pi llm).1 = .stateWithError m) ∨
        (∃ m, (supplier_summary_node pi llm).1 = .errorsPatch m))) ∧
    (∀ (pi : Option ParsedInputD) (llm : Except String PyStr),
      (pi = none → (action_items_node pi llm).1 = .stateWithError ("Missing parsed_input")) ∧
      (∀ m, llm = .error m → pi ≠ none →
        (action_items_node pi llm).1 = .errorsPatch (("Action items error: ") ++ m)) ∧
      ((∃ p g, (action_items_node pi llm).1 = .output p g) ∨
        (∃ m, (action_items_node pi llm).1 = .stateWithError m) ∨
        (∃ m, (action_items_node pi llm).1 = .errorsPatch m))) := by
  refine ⟨?_, ?_, ?_⟩
  · intro pi llm
    refine ⟨?_, ?_, ?_⟩
    · intro h
      subst h
      rfl
    · intro m hm hpi
      cases pi with
      | none => exact absurd rfl hpi
      | some p => subst hm; rfl
    · cases pi with
      | none => exact Or.inr (Or.inl ⟨_, rfl⟩)
      | some p =>
        cases llm with
        | error m => exact Or.inr (Or.inr ⟨_, rfl⟩)
        | ok t =>
          cases hx : marketExtract t with
          | error u =>
            cases u
            exact Or.inr (Or.inr ⟨("Market analysis error: ") ++ ("list index out of range"),
              by simp [market_analysis_node, hx]⟩)
          | ok ma => exact Or.inl ⟨ma, 100, by simp [market_analysis_node, hx]⟩
  · intro pi llm
    refine ⟨?_, ?_, ?_⟩
    · intro h
      subst h
      rfl
    · intro m hm hpi
      cases pi with
      | none => exact absurd rfl hpi
      | some p => subst hm; rfl
    · cases pi with
      | none => exact Or.inr (Or.inl ⟨_, rfl⟩)
      | some p =>
        cases llm with
        | error m => exact Or.inr (Or.inr ⟨_, rfl⟩)
        | ok t => exact Or.inl ⟨_, _, rfl⟩
  · intro pi llm
    refine ⟨?_, ?_, ?_⟩
    · intro h
      subst h
      rfl
    · intro m hm hpi
      cases pi with
      | none => exact absurd rfl hpi
      | some p => subst hm; rfl
    · cases pi with
      | none => exact Or.inr (Or.inl ⟨_, rfl⟩)
      | some p =>
        cases llm with
        | error m => exact Or.inr (Or.inr ⟨_, rfl⟩)
        | ok t => exact Or.inl ⟨_, _, rfl⟩

/-- Witness for C3: concrete timeout-style failures and a missing dependency
map to normal returns with exactly one error message. -/
theorem step_boundary_no_raise_witness :
    (market_analysis_node none (.ok (pyOf ("x")))).1 =
      .stateWithError ("Missing parsed_input") ∧
    (supplier_summary_node (some
        ⟨[], [], none, [], ⟨pyOf ("ACME"), [], pyOf ("crm"), pyOf ("9"), pyOf ("8"),
          pyOf ("10"), pyOf ("urgent")⟩⟩)
      (.error ("Request timeout"))).1 =
      .errorsPatch ("Supplier summary error: Request timeout") := by
  constructor
  · exact ((step_boundary_no_raise.1 none (.ok (pyOf ("x")))).1) rfl
  · exact ((step_boundary_no_raise.2.1 _ (.error ("Request timeout"))).2.1)
      ("Request timeout") rfl (by intro h; cases h)

/-!
## `parse_node` — `backend/app/agents/parse.py`, lines 25-183

Validation order: `supplier_offer_pdf`, `initial_request_pdf`, `form_data`
(truthiness via `state.get`), then `FormData(**state["form_data"])`
(pydantic validation, modelled as an `Except` argument); each failure
appends one message to `state["errors"]`, publishes one `status=error`
event at progress 0.1, and returns the state.  On success the node builds
`ParsedInput` (extracting alternatives when the optional PDF is present —
`extract_alternatives_from_pdf` itself never raises, and a failure inside
the `try` at lines 133-146 downgrades to an empty list) and finishes at
progress 0.15.
-/

/-- Python truthiness of an optional string field (`None` and `""` falsy). -/
def pyTruthy : Option PyStr → Bool
  | none => false
  | some s => !s.isEmpty

/-- The state slice `parse_node` reads and writes. -/
structure ParseState where
  supplier_offer_pdf : Option PyStr
  initial_request_pdf : Option PyStr
  alternatives_pdf : Option PyStr
  form_data_truthy : Bool
  errors : List String
deriving DecidableEq

/-- What `parse_node` hands back: the (possibly extended) error list, the
`parsed_input` slot, and the `progress` value it set (if any). -/
structure ParseRet where
  errors : List String
  parsed_input : Option ParsedInputD
  progress : Option Nat
deriving DecidableEq

/-- `parse_node`, returning its state update and published events. -/
def parse_node (st : ParseState) (formParse : Except String FormDataD)
    (altOutcome : Except String (List AltD)) : ParseRet × List Event :=
  let ev0 : Event := ⟨("parse"), ("running"), ("Starting input validation..."),
    some ("Checking required documents and form data"), 5, none⟩
  let failEv : String → Event := fun m => ⟨("parse"), ("error"), m, none, 10, none⟩
  if ¬ pyTruthy st.supplier_offer_pdf then
    (⟨st.errors ++ [("Missing supplier offer PDF text")], none, none⟩,
      [ev0, failEv ("Missing supplier offer PDF text")])
  else if ¬ pyTruthy st.initial_request_pdf then
    (⟨st.errors ++ [("Missing initial request PDF text")], none, none⟩,
      [ev0, failEv ("Missing initial request PDF text")])
  else if ¬ st.form_data_truthy then
    (⟨st.errors ++ [("Missing form data")], none, none⟩,
      [ev0, failEv ("Missing form data")])
  else
    match formParse with
    | .error m =>
      let msg := ("Invalid form data: ") ++ m
      (⟨st.errors ++ [msg], none, none⟩, [ev0, failEv msg])
    | .ok fd =>
      let ev8 : Event := ⟨("parse"), ("running"), ("Validation complete"),
        some (("Processing supplier: ") ++ String.mk fd.supplier_name), 8, none⟩
      let altStep : List AltD × List Event :=
        if pyTruthy st.alternatives_pdf then
          let ev10 : Event := ⟨("parse"), ("running"), ("Analyzing alternatives document..."),
            some ("Using AI to extract competitor information"), 10, none⟩
          match altOutcome with
          | .ok alts =>
            (alts, [ev10, ⟨("parse"), ("running"),
              ("Found ") ++ toString alts.length ++ (" alternative suppliers"),
              some ("Structuring competitor data for analysis"), 12, none⟩])
          | .error _ => ([], [ev10])
        else ([], [])
      let ev13 : Event := ⟨("parse"), ("running"), ("Building structured data..."),
        some ("Finalizing input preparation for analysis"), 13, none⟩
      let pi : ParsedInputD := ⟨st.supplier_offer_pdf.getD [], st.initial_request_pdf.getD [],
        st.alternatives_pdf, altStep.1, fd⟩
      let ev15 : Event := ⟨("parse"), ("completed"), ("✓ Input validation & parsing complete"),
        some (("Ready to analyze ") ++ String.mk fd.supplier_name), 15, none⟩
      (⟨st.errors, some pi, some 15⟩, [ev0, ev8] ++ altStep.2 ++ [ev13, ev15])

/-!
## The pipeline graph — `backend/app/agents/graph.py`, lines 25-133

`create_negotiation_graph` registers, *alongside* the conditional edge from
`parse` (which routes to `supplier_summary_agent` on `"continue"` and to
`END` on `"end"`), the unconditional edges `parse → market_analysis_agent`
and `parse → offer_analysis_agent` (lines 111-112).  In LangGraph both edge
kinds fire when `parse` completes, so the conditional halt only gates
`supplier_summary_agent`.  Execution proceeds in supersteps: every target of
a node completed in the current superstep runs in the next one (a node with
several completed sources, like `outcome_assessment_agent`, runs once).
-/

/-- The graph's nodes (`END` is represented by absence of a target). -/
inductive GNode
  | parse
  | supplier_summary_agent
  | market_analysis_agent
  | offer_analysis_agent
  | outcome_assessment_agent
  | action_items_agent
deriving DecidableEq

/-- `should_continue_after_parse` (graph.py lines 25-41). -/
def should_continue_after_parse (errors : List String) : String :=
  if errors.length > 0 then ("end") else ("continue")

/-- The unconditional edges added with `add_edge` (lines 111-125). -/
def plainTargets : GNode → List GNode
  | .parse => [.market_analysis_agent, .offer_analysis_agent]
  | .supplier_summary_agent => []
  | .market_analysis_agent => [.outcome_assessment_agent]
  | .offer_analysis_agent => [.outcome_assessment_agent]
  | .outcome_assessment_agent => [.action_items_agent]
  | .action_items_agent => []

/-- The conditional edges added with `add_conditional_edges` (lines 101-108),
as a function of the `errors` list after `parse` ran. -/
def condTargets (errors : List String) : GNode → List GNode
  | .parse =>
    if should_continue_after_parse errors = ("continue") then [.supplier_summary_agent] else []
  | _ => []

/-- All targets activated when a node completes. -/
def stepTargets (errors : List String) (n : GNode) : List GNode :=
  condTargets errors n ++ plainTargets n

/-- One LangGraph superstep: the deduplicated targets of the nodes that just
completed. -/
def superstep (errors : List String) (active : List GNode) : List GNode :=
  ((active.map (stepTargets errors)).flatten).dedup

/-- The nodes executed over the first `n` supersteps. -/
def executedFrom (errors : List String) : Nat → List GNode → List GNode
  | 0, active => active
  | n + 1, active => active ++ executedFrom errors n (superstep errors active)

/-- All nodes executed for one job, starting at the entry point `parse`;
six supersteps exhaust this graph. -/
def executedSteps (errors : List String) : List GNode :=
  (executedFrom errors 6 [.parse]).dedup

/-- C1 (code bug): on a job whose `supplier_offer` input is missing, `parse`
appends exactly `"Missing supplier offer PDF text"` and publishes exactly one
`status=error` event, and `errors` being non-empty routes the conditional
edge to `END` — but the unconditional edges `parse → market_analysis_agent`
and `parse → offer_analysis_agent` (graph.py lines 111-112) still schedule
the downstream agents, so `market_analysis`, `offer_analysis`,
`outcome_assessment` and `action_items` all run, contradicting the claim
(and graph.py's own docstring, lines 70-73: "Parse failure stops entire
pipeline"); only `supplier_summary` is skipped. -/
theorem parse_missing_supplier_downstream_still_runs :
    (parse_node ⟨none, some (pyOf ("request text")), none, true, []⟩
        (.error ("not reached")) (.error ("not reached"))).1.errors =
      [("Missing supplier offer PDF text")] ∧
    ((parse_node ⟨none, some (pyOf ("request text")), none, true, []⟩
        (.error ("not reached")) (.error ("not reached"))).2.filter
      (fun e => e.status == ("error"))).length = 1 ∧
    executedSteps [("Missing supplier offer PDF text")] =
      [.parse, .market_analysis_agent, .offer_analysis_agent,
        .outcome_assessment_agent, .action_items_agent] ∧
    GNode.market_analysis_agent ∈ executedSteps [("Missing supplier offer PDF text")] ∧
    GNode.supplier_summary_agent ∉ executedSteps [("Missing supplier offer PDF text")] := by
  refine ⟨rfl, rfl, by decide, by decide, by decide⟩

/-!
## `outcome_assessment_node` — `backend/app/agents/outcome_assessment.py`
-/

/-- `confidence_map.get(value_assessment, "Medium")` (lines 141-147). -/
def confidenceOf (va : PyStr) : PyStr :=
  if va = pyOf ("urgent") then pyOf ("High")
  else if va = pyOf ("high_impact") then pyOf ("High")
  else if va = pyOf ("medium_impact") then pyOf ("Medium")
  else if va = pyOf ("low_impact") then pyOf ("Low")
  else pyOf ("Medium")

/-- `partnership_map.get(value_assessment, "Preferred Vendor")` (149-156). -/
def partnershipOf (va : PyStr) : PyStr :=
  if va = pyOf ("urgent") then pyOf ("Strategic Partner")
  else if va = pyOf ("high_impact") then pyOf ("Strategic Partner")
  else if va = pyOf ("medium_impact") then pyOf ("Preferred Vendor")
  else if va = pyOf ("low_impact") then pyOf ("Transactional")
  else pyOf ("Preferred Vendor")

/-- One line of the `LEVERAGE`/`TACTIC` scan (lines 240-248). -/
def outcomeLineStep (acc : List PyStr × List PyStr) (rawLine : PyStr) :
    List PyStr × List PyStr :=
  let line := pyStrip rawLine
  if startsWithL line (pyOf ("LEVERAGE")) then
    let leverage_text := if pyContains line (pyOf (":"))
      then pyStrip (pyAfterFirst line (pyOf (":"))) else line
    (acc.1 ++ [leverage_text], acc.2)
  else if startsWithL line (pyOf ("TACTIC")) then
    let tactic_text := if pyContains line (pyOf (":"))
      then pyStrip (pyAfterFirst line (pyOf (":"))) else line
    (acc.1, acc.2 ++ [tactic_text])
  else acc

/-- `outcome_assessment_node`'s response parsing (lines 236-262): scan lines,
default each empty list to 3 stock entries, clamp both to 5, then pad
tactics back up to 3. -/
def outcomeExtract (t : PyStr) : List PyStr × List PyStr :=
  let scan := (pySplit t (pyOf ("\n"))).foldl outcomeLineStep ([], [])
  let negotiation_leverage := if scan.1 = [] then
    [pyOf ("Multiple alternatives available"), pyOf ("Gaps in offer provide leverage"),
      pyOf ("Market competition")] else scan.1
  let recommended_tactics := if scan.2 = [] then
    [pyOf ("Highlight offer gaps"), pyOf ("Reference alternatives"),
      pyOf ("Emphasize value assessment")] else scan.2
  let negotiation_leverage := negotiation_leverage.take 5
  let recommended_tactics := recommended_tactics.take 5
  let recommended_tactics := recommended_tactics ++
    List.replicate (3 - recommended_tactics.length) (pyOf ("Request additional concessions"))
  (negotiation_leverage, recommended_tactics)

/-- The `OutcomeAssessment` payload. -/
structure OutcomeD where
  target_achievable : Bool
  confidence : PyStr
  negotiation_leverage : List PyStr
  recommended_tactics : List PyStr
  partnership_recommendation : PyStr
deriving DecidableEq

/-- `outcome_assessment_node` (lines 36-304): parses the three prices with
`parse_price`, computes `target_achievable = offer_price <= target_price if
offer_price and target_price else False` (line 138), and builds the
strategy payload from the LLM response. -/
def outcome_assessment_node (parsed_input : Option ParsedInputD)
    (llm : Except String PyStr) : AgentRet OutcomeD × List Event :=
  let start : Event := ⟨("outcome_assessment"), ("running"), ("Starting outcome assessment..."),
    some ("Researching negotiation tactics"), 15, some 0⟩
  match parsed_input with
  | none => (.stateWithError ("Missing parsed_input"), [start])
  | some pi =>
    let offer_price := parse_price pi.form_data.offer_price
    let target_price := parse_price pi.form_data.target_price
    let target_achievable : Bool :=
      if offer_price ≠ 0 ∧ target_price ≠ 0 then offer_price ≤ target_price else false
    let e18 : Event := ⟨("outcome_assessment"), ("running"),
      ("Researching negotiation tactics..."),
      some (("Finding leverage for ") ++ String.mk pi.form_data.product_type ++ (" deals")),
      18, some 20⟩
    let e25 : Event := ⟨("outcome_assessment"), ("running"),
      ("Research complete, building strategy..."),
      some ("Generating negotiation recommendations"), 25, some 50⟩
    match llm with
    | .error m =>
      let msg := ("Outcome assessment error: ") ++ m
      (.errorsPatch msg,
        [start, e18, e25,
          ⟨("outcome_assessment"), ("error"), ("Outcome assessment failed"), some msg, 15, some 0⟩])
    | .ok response_text =>
      let lt := outcomeExtract response_text
      (.output ⟨target_achievable, confidenceOf pi.form_data.value_assessment, lt.1, lt.2,
          partnershipOf pi.form_data.value_assessment⟩ 100,
        [start, e18, e25,
          ⟨("outcome_assessment"), ("completed"), ("✓ Outcome assessment complete"),
            some (("Strategy ready - ") ++
              (if target_achievable then ("Target achievable") else ("Negotiate hard"))),
            35, some 100⟩])

/-!
## `offer_analysis_node` — `backend/app/agents/offer_analysis.py`

Only this node's published events and error policy matter to the claims;
its `OfferAnalysis` payload is abstracted to the completeness score its
completed event reports (the rest of the payload is never read by a claim).
-/

/-- `offer_analysis_node` (lines 26-253), with the body outcome supplying
the completeness score on success. -/
def offer_analysis_node (parsed_input : Option ParsedInputD)
    (body : Except String Nat) : AgentRet Nat × List Event :=
  let start : Event := ⟨("offer_analysis"), ("running"), ("Starting offer analysis..."),
    some ("Researching industry standards"), 15, some 0⟩
  match parsed_input with
  | none => (.stateWithError ("Missing parsed_input"), [start])
  | some pi =>
    let e18 : Event := ⟨("offer_analysis"), ("running"), ("Researching industry standards..."),
      some (("Looking up typical ") ++ String.mk pi.form_data.product_type ++ (" terms")),
      18, some 20⟩
    let e25 : Event := ⟨("offer_analysis"), ("running"), ("Research complete, analyzing offer..."),
      some ("Comparing offer to requirements"), 25, some 50⟩
    match body with
    | .error m =>
      let msg := ("Offer analysis error: ") ++ m
      (.errorsPatch msg,
        [start, e18, e25,
          ⟨("offer_analysis"), ("error"), ("Offer analysis failed"), some msg, 15, some 0⟩])
    | .ok completeness_score =>
      (.output completeness_score 100,
        [start, e18, e25,
          ⟨("offer_analysis"), ("completed"), ("âœ“ Offer analysis complete"),
            some (("Completeness score: ") ++ toString completeness_score ++ ("/10")),
            35, some 100⟩])

/-!
## `run_mas_pipeline` — `backend/app/services/mas_pipeline.py`, lines 8-145

Control flow: if the document id is missing from the documents store, publish
one `status=error` event and return — *without* writing to the briefings
store (lines 29-37).  Otherwise publish the start event, run the graph, and:
on a non-empty final `errors` list store an error record and publish a
`status=error` event at the final progress; on engine fault anywhere in the
`try` body (the graph raising, `final_state["final_briefing"]` missing —
a `KeyError` whose `str` is `'final_briefing'` — or the vector-store call
raising) the `except` handler stores an error record and publishes a
`status=error` event at progress 0.0; otherwise store the completed record
and publish the completion event at progress 1.0.
-/

/-- The final state the graph invocation hands back (the slices the runner
reads): the error list, the progress value, and whether the
`"final_briefing"` key is present (indexing it when absent raises). -/
structure GraphFinal where
  errors : List String
  progress : Nat
  final_briefing_present : Bool
deriving DecidableEq

/-- Outcome of `negotiation_graph.ainvoke`. -/
inductive GraphRun
  | raised (msg : String)
  | finished (fs : GraphFinal)
deriving DecidableEq

/-- A record in the briefings store (the `briefing` payload itself is opaque
to the claims). -/
structure StoreRecord where
  status : String
  errors : List String := []
  error : Option String := none
  vector_db_id : Option String := none
deriving DecidableEq

/-- `run_mas_pipeline`, as a function of whether the document is in the
documents store, the graph outcome, and the vector-store call's outcome.
Returns the published events and the briefings-store record written (if
any). -/
def run_mas_pipeline (docPresent : Bool) (graphRun : GraphRun)
    (vector : Except String String) : List Event × Option StoreRecord :=
  if ¬ docPresent then
    ([⟨("system"), ("error"), ("Document not found"), none, 0, none⟩], none)
  else
    let start : Event := ⟨("system"), ("running"),
      ("Starting Multi-Agent System pipeline..."), none, 0, none⟩
    let exceptPath : String → List Event × Option StoreRecord := fun m =>
      ([start, ⟨("system"), ("error"), ("Unexpected error: ") ++ m, none, 0, none⟩],
        some ⟨("error"), [], some m, none⟩)
    match graphRun with
    | .raised m => exceptPath m
    | .finished fs =>
      if fs.errors ≠ [] then
        ([start, ⟨("system"), ("error"),
            ("Pipeline failed: ") ++ String.intercalate (", ") fs.errors, none,
            fs.progress, none⟩],
          some ⟨("error"), fs.errors, none, none⟩)
      else if ¬ fs.final_briefing_present then
        exceptPath ("'final_briefing'")
      else
        match vector with
        | .error m => exceptPath m
        | .ok vid =>
          ([start, ⟨("system"), ("completed"), ("Briefing generation complete!"), none,
              100, none⟩],
            some ⟨("completed"), [], none, some vid⟩)

/-- C2 counterexample: a started job whose document id is not in the
documents store gets a terminal `status=error` progress event but *no*
briefings-store record at all — the runner returns at line 37 before any
store write, so this started job is left with no terminal status recorded
and the claim as stated is false. -/
theorem job_runner_missing_document_counterexample :
    (run_mas_pipeline false (.finished ⟨[], 0, true⟩) (.ok ("v"))).2 = none ∧
    (run_mas_pipeline false (.finished ⟨[], 0, true⟩) (.ok ("v"))).1 =
      [⟨("system"), ("error"), ("Document not found"), none, 0, none⟩] := by
  exact ⟨rfl, rfl⟩

/-- C2 (amended): for every started job the runner publishes a terminal
progress event (status `completed` with progress 1.0, or status `error`),
even when the graph invocation or the vector-store call raises; and it
writes a terminal record with status in `{completed, error}` into the
briefings store exactly when the job's document id is present in the
documents store — on the document-not-found path it publishes the error
event but records nothing. -/
theorem job_runner_terminal_guarantee :
    ∀ (docPresent : Bool) (g : GraphRun) (v : Except String String),
      ((run_mas_pipeline docPresent g v).1.getLast?.any
        (fun e => e.status == ("error") ||
          (e.status == ("completed") && e.progress == 100))) = true ∧
      (run_mas_pipeline docPresent g v).2.isSome = docPresent ∧
      ((run_mas_pipeline docPresent g v).2.all
        (fun r => r.status == ("completed") || r.status == ("error"))) = true := by
  intro docPresent g v
  cases docPresent with
  | false => exact ⟨rfl, rfl, rfl⟩
  | true =>
    cases g with
    | raised m => exact ⟨rfl, rfl, rfl⟩
    | finished fs =>
      by_cases he : fs.errors = []
      · by_cases hb : fs.final_briefing_present
        · cases v with
          | error m =>
            simp [run_mas_pipeline, he, hb]
          | ok vid =>
            simp [run_mas_pipeline, he, hb]
        · simp [run_mas_pipeline, he, hb]
      · simp [run_mas_pipeline, he, List.getLast?]

/-!
## The SSE `event_generator` — `backend/app/api/routes.py`, lines 196-214

The generator subscribes a queue, then loops: `asyncio.wait_for(queue.get(),
timeout=30.0)` either delivers the next queue event — which is yielded, and
the loop breaks when `event.get("progress") == 1.0` or
`event.get("status") == "error"` — or times out, in which case a keepalive
is yielded and the loop continues.  The `finally` unsubscribes the queue.
The input is modelled as the sequence of waits the generator performs: a
delivered event, or a 30-second timeout.
-/

/-- One wait outcome inside the generator's loop. -/
inductive StreamItem
  | ev (e : Event)
  | timeout30
deriving DecidableEq

/-- What the generator yields to the HTTP transport. -/
inductive YieldItem
  | data (e : Event)
  | keepalive
deriving DecidableEq

/-- The loop's break test: `event.get("progress") == 1.0 or
event.get("status") == "error"` (every published event carries `progress`). -/
def isTerminalEvent (e : Event) : Bool := e.progress == 100 || e.status == ("error")

/-- The yield a wait outcome produces. -/
def toYield : StreamItem → YieldItem
  | .ev e => .data e
  | .timeout30 => .keepalive

/-- Whether a wait outcome breaks the loop (keepalives never do). -/
def itemTerminal : StreamItem → Bool
  | .ev e => isTerminalEvent e
  | .timeout30 => false

/-- The generator's output over a finite sequence of wait outcomes. -/
def event_generator : List StreamItem → List YieldItem
  | [] => []
  | .timeout30 :: rest => .keepalive :: event_generator rest
  | .ev e :: rest => .data e :: (if isTerminalEvent e then [] else event_generator rest)

/-- The route body: run the generator; the `finally` always unsubscribes
(second component). -/
def event_generator_run (items : List StreamItem) : List YieldItem × Bool :=
  (event_generator items, true)

/-- C9: the stream forwards every queue event in order, emits a keepalive for
every 30-second timeout, and terminates exactly after yielding the first
event whose progress is 1.0 or whose status is `"error"` (anything after it
is not consumed); keepalives never terminate the stream, and a terminal-free
sequence is forwarded in full; the queue is unsubscribed when the generator
finishes. -/
theorem event_generator_contract :
    (∀ (pre : List StreamItem) (e : Event) (post : List StreamItem),
      (∀ i ∈ pre, itemTerminal i = false) → isTerminalEvent e = true →
      event_generator (pre ++ .ev e :: post) = pre.map toYield ++ [.data e]) ∧
    (∀ items : List StreamItem, (∀ i ∈ items, itemTerminal i = false) →
      event_generator items = items.map toYield) ∧
    (∀ items : List StreamItem, (event_generator_run items).2 = true) := by
  refine ⟨?_, ?_, fun _ => rfl⟩
  · intro pre
    induction pre with
    | nil =>
      intro e post _ hterm
      simp [event_generator, hterm]
    | cons i pre ih =>
      intro e post hpre hterm
      have hi : itemTerminal i = false := hpre i (List.mem_cons_self _ _)
      have hpre' : ∀ j ∈ pre, itemTerminal j = false :=
        fun j hj => hpre j (List.mem_cons_of_mem _ hj)
      cases i with
      | timeout30 =>
        simp only [List.cons_append, event_generator, List.map_cons, List.append_eq]
        rw [ih e post hpre' hterm]
        rfl
      | ev e' =>
        have he' : isTerminalEvent e' = false := hi
        simp only [List.cons_append, event_generator, he', Bool.false_eq_true, if_false,
          List.map_cons, List.append_eq]
        rw [ih e post hpre' hterm]
        rfl
  · intro items
    induction items with
    | nil => intro _; rfl
    | cons i items ih =>
      intro hall
      have hi : itemTerminal i = false := hall i (List.mem_cons_self _ _)
      have hall' : ∀ j ∈ items, itemTerminal j = false :=
        fun j hj => hall j (List.mem_cons_of_mem _ hj)
      cases i with
      | timeout30 =>
        simp only [event_generator, List.map_cons]
        rw [ih hall']
        rfl
      | ev e =>
        have he : isTerminalEvent e = false := hi
        simp only [event_generator, he, Bool.false_eq_true, if_false, List.map_cons]
        rw [ih hall']
        rfl

/-- Witness for C9 on a concrete stream: a running event, a keepalive
timeout, then a terminal error event followed by an unconsumed extra event. -/
theorem event_generator_contract_witness :
    event_generator
        [.ev ⟨("parse"), ("running"), ("m1"), none, 5, none⟩, .timeout30,
          .ev ⟨("system"), ("error"), ("boom"), none, 10, none⟩,
          .ev ⟨("parse"), ("running"), ("m2"), none, 8, none⟩] =
      [.data ⟨("parse"), ("running"), ("m1"), none, 5, none⟩, .keepalive,
        .data ⟨("system"), ("error"), ("boom"), none, 10, none⟩] := by
  exact event_generator_contract.1
    [.ev ⟨("parse"), ("running"), ("m1"), none, 5, none⟩, .timeout30]
    ⟨("system"), ("error"), ("boom"), none, 10, none⟩
    [.ev ⟨("parse"), ("running"), ("m2"), none, 8, none⟩]
    (by decide) (by decide)

/-!
## Progress monotonicity over a successful job (C4)

One legal serialization of a fully successful job's published events, in
publish order as a single subscriber's queue receives them: the runner's
start event; `parse` (progress 0.05 … 0.15); the tier-1 agents
`supplier_summary`, `market_analysis`, `offer_analysis` (each 0.15 → 0.35,
serialized in this order — their relative order is unspecified, and any
interleaving is a legal observation); then `outcome_assessment` and
`action_items` (each again 0.15 → 0.35), which *necessarily* start after
`market_analysis`'s 0.35 completion event because of the graph's edges; and
the runner's completion event at 1.0.  The decrease 0.35 → 0.15 between a
tier-1 completion and `outcome_assessment`'s first event is therefore forced
by the dependency order, not an artifact of the chosen interleaving.
-/

/-- Sample validated form data for the canonical run. -/
def fdX : FormDataD :=
  ⟨pyOf ("ACME"), [], pyOf ("crm software"), pyOf ("90000"), pyOf ("80000"),
    pyOf ("100000"), pyOf ("medium_impact")⟩

/-- Sample input state for the canonical run (both PDFs present, no
alternatives). -/
def stX : ParseState :=
  ⟨some (pyOf ("offer text")), some (pyOf ("request text")), none, true, []⟩

/-- The parsed input the parse node produces for `stX`/`fdX`. -/
def piX : ParsedInputD :=
  ⟨pyOf ("offer text"), pyOf ("request text"), none, [], fdX⟩

/-- The canonical successful run's published event sequence. -/
def canonicalSuccessRun : List Event :=
  ⟨("system"), ("running"), ("Starting Multi-Agent System pipeline..."), none, 0, none⟩ ::
  (parse_node stX (.ok fdX) (.ok [])).2 ++
  (supplier_summary_node (some piX) (.ok (pyOf ("text")))).2 ++
  (market_analysis_node (some piX) (.ok (pyOf ("no markers here")))).2 ++
  (offer_analysis_node (some piX) (.ok 7)).2 ++
  (outcome_assessment_node (some piX) (.ok (pyOf ("text")))).2 ++
  (action_items_node (some piX) (.ok (pyOf ("text")))).2 ++
  [⟨("system"), ("completed"), ("Briefing generation complete!"), none, 100, none⟩]

/-- Boolean non-decreasing test on a list of naturals. -/
def nonDecreasing : List Nat → Bool
  | [] => true
  | [_] => true
  | a :: b :: rest => decide (a ≤ b) && nonDecreasing (b :: rest)

/-- C4 counterexample: on the canonical successful run the sequence of
progress values a single subscriber observes is *not* non-decreasing (it
drops from 0.35 back to 0.15 at every tier boundary), even though the run
succeeds and its final value is exactly 1.0 — so the claim's monotonicity
part is false. -/
theorem progress_monotonicity_counterexample :
    nonDecreasing (canonicalSuccessRun.map Event.progress) = false ∧
    (canonicalSuccessRun.map Event.progress).getLast? = some 100 := by
  exact ⟨by decide, by decide⟩

/-- C4 (amended): on a successful job the final observed progress value is
exactly 1.0 (carried by a `status=completed` event), and each individual
step's own published success-path progress values are non-decreasing — but
the overall observed sequence is not non-decreasing, because each agent's
events restart at 0.15 after tier-1 agents have already published 0.35. -/
theorem progress_per_step_monotone_final_one :
    (canonicalSuccessRun.map Event.progress).getLast? = some 100 ∧
    (canonicalSuccessRun.getLast?.any (fun e => e.status == ("completed"))) = true ∧
    nonDecreasing (((parse_node stX (.ok fdX) (.ok [])).2).map Event.progress) = true ∧
    nonDecreasing (((supplier_summary_node (some piX) (.ok (pyOf ("text")))).2).map
      Event.progress) = true ∧
    nonDecreasing (((market_analysis_node (some piX) (.ok (pyOf ("no markers here")))).2).map
      Event.progress) = true ∧
    nonDecreasing (((offer_analysis_node (some piX) (.ok 7)).2).map Event.progress) = true ∧
    nonDecreasing (((outcome_assessment_node (some piX) (.ok (pyOf ("text")))).2).map
      Event.progress) = true ∧
    nonDecreasing (((action_items_node (some piX) (.ok (pyOf ("text")))).2).map
      Event.progress) = true ∧
    nonDecreasing (canonicalSuccessRun.map Event.progress) = false := by
  refine ⟨by decide, by decide, by decide, by decide, by decide, by decide, by decide,
    by decide, by decide⟩
